import Mathlib

/-!
Verification of the OpenTitanUARTDriver component of sparrow-cantrip-full.

The definitions below are a shallow embedding of
`apps/system/components/OpenTitanUARTDriver/src/circular_buffer.c` and
`apps/system/components/OpenTitanUARTDriver/src/driver.c`.  Bytes are
modelled as `Nat`; the C `char data[CIRCULAR_BUFFER_CAPACITY + 1]` array
is modelled as a total function `Nat → Nat` (C code only ever indexes it
at `begin`/`end`, which the well-formedness predicate bounds by the array
size); the two cursor pointers `begin`/`end` are modelled as array
indices.  Fallible C functions returning `bool` plus an out-parameter are
modelled with `Option`.
-/

/-- CIRCULAR_BUFFER_CAPACITY from circular_buffer.h. -/
def CIRCULAR_BUFFER_CAPACITY : Nat := 512

/-- The circular_buffer struct: `char data[CAPACITY+1]; char *begin; char *end;`.
`begin_`/`end_` are offsets into `data` (the C code stores pointers; `end` and
`begin` are reserved or awkward in Lean, hence the trailing underscore). -/
structure circular_buffer where
  data : Nat → Nat
  begin_ : Nat
  end_ : Nat

/-- circular_buffer_advance: `*p += 1; if (*p > buf->data + CAPACITY) *p = buf->data;`
(advance one cursor, wrapping past index CAPACITY back to 0). -/
def circular_buffer_advance (p : Nat) : Nat :=
  if p + 1 > CIRCULAR_BUFFER_CAPACITY then 0 else p + 1

/-- circular_buffer_clear: `buf->begin = buf->data; buf->end = buf->data;`. -/
def circular_buffer_clear (buf : circular_buffer) : circular_buffer :=
  { buf with begin_ := 0, end_ := 0 }

/-- circular_buffer_init just calls circular_buffer_clear. -/
def circular_buffer_init (buf : circular_buffer) : circular_buffer :=
  circular_buffer_clear buf

/-- circular_buffer_empty: `return buf->begin == buf->end;`. -/
def circular_buffer_empty (buf : circular_buffer) : Bool :=
  buf.begin_ == buf.end_

/-- circular_buffer_size: distance from begin to end, wrapping over the
CAPACITY+1 sized backing array. -/
def circular_buffer_size (buf : circular_buffer) : Nat :=
  if buf.end_ ≥ buf.begin_ then
    buf.end_ - buf.begin_
  else
    CIRCULAR_BUFFER_CAPACITY - (buf.begin_ - buf.end_ - 1)

/-- circular_buffer_remaining: `CAPACITY - size`. -/
def circular_buffer_remaining (buf : circular_buffer) : Nat :=
  CIRCULAR_BUFFER_CAPACITY - circular_buffer_size buf

/-- circular_buffer_pop_front: on empty returns false (here `none`);
otherwise yields `*buf->begin` and advances `begin`. -/
def circular_buffer_pop_front (buf : circular_buffer) :
    Option (Nat × circular_buffer) :=
  if circular_buffer_empty buf then none
  else some (buf.data buf.begin_,
             { buf with begin_ := circular_buffer_advance buf.begin_ })

/-- circular_buffer_push_back: on full (`remaining == 0`) returns false
(here `none`); otherwise writes `*buf->end = c` and advances `end`. -/
def circular_buffer_push_back (buf : circular_buffer) (c : Nat) :
    Option circular_buffer :=
  if circular_buffer_remaining buf = 0 then none
  else some { buf with
              data := fun j => if j = buf.end_ then c else buf.data j,
              end_ := circular_buffer_advance buf.end_ }

/-- Well-formedness: both cursors point into the CAPACITY+1 sized array
(every buffer produced by init/push/pop from an initialized buffer
satisfies this). -/
def circular_buffer_wf (buf : circular_buffer) : Prop :=
  buf.begin_ ≤ CIRCULAR_BUFFER_CAPACITY ∧ buf.end_ ≤ CIRCULAR_BUFFER_CAPACITY

instance (buf : circular_buffer) : Decidable (circular_buffer_wf buf) :=
  inferInstanceAs (Decidable (_ ∧ _))

/-- Abstraction of a circular buffer to the queue of bytes it holds, oldest
first: the bytes at offsets begin, begin+1, ..., begin+size-1 (mod CAPACITY+1). -/
def circular_buffer_toList (buf : circular_buffer) : List Nat :=
  (List.range (circular_buffer_size buf)).map
    (fun i => buf.data ((buf.begin_ + i) % (CIRCULAR_BUFFER_CAPACITY + 1)))

/-- Pop n times in a row, collecting the popped bytes in order (stops early
if the buffer empties). -/
def circular_buffer_popN (buf : circular_buffer) : Nat → List Nat × circular_buffer
  | 0 => ([], buf)
  | n + 1 =>
    match circular_buffer_pop_front buf with
    | none => ([], buf)
    | some (c, b2) =>
      let r := circular_buffer_popN b2 n
      (c :: r.1, r.2)

/-- Push a whole list of bytes in order; `none` as soon as one push fails. -/
def circular_buffer_pushList (buf : circular_buffer) : List Nat → Option circular_buffer
  | [] => some buf
  | c :: cs =>
    match circular_buffer_push_back buf c with
    | none => none
    | some b2 => circular_buffer_pushList b2 cs

-- ==================== driver.c model ====================

/-- UART_FIFO_CAPACITY from driver.c: hardware TX/RX FIFO capacity. -/
def UART_FIFO_CAPACITY : Nat := 32

/-- TX_RX_DATAPORT_CAPACITY = PAGE_SIZE.  Modelled from the spec: the CAmkES
dataport is one page (4096 bytes); PAGE_SIZE itself is defined outside this
repository. -/
def TX_RX_DATAPORT_CAPACITY : Nat := 4096

/-- CLK_FIXED_FREQ_HZ from driver.c. -/
def CLK_FIXED_FREQ_HZ : Nat := 48000000

/-- UARTDriver_AssertionFailed from uart_driver_error.h. -/
def UARTDriver_AssertionFailed : Int := -1

/-- UARTDriver_OutOfDataportBounds from uart_driver_error.h. -/
def UARTDriver_OutOfDataportBounds : Int := -2

/-- Synchronization calls made by the blocking operations, in program order:
CAmkES mutex lock/unlock and semaphore wait/post. -/
inductive SyncEv where
  | lockRx
  | unlockRx
  | lockTx
  | unlockTx
  | postRxNonempty
  | waitRxNonempty
  | postRxEmpty
  | waitRxEmpty
deriving DecidableEq, Repr

/-- The while loop of fill_tx_fifo: while the hardware TX FIFO has room
(tx_fifo_level() < UART_FIFO_CAPACITY), pop one byte from tx_buf and
uart_putchar it; stop early when tx_buf is empty.  `level` is the hardware
TX FIFO level (uart_putchar raises it by one); the returned list is the
byte sequence handed to uart_putchar, in order. -/
def fill_tx_fifo_loop (level : Nat) (buf : circular_buffer) :
    Nat × circular_buffer × List Nat :=
  if _h : level < UART_FIFO_CAPACITY then
    match circular_buffer_pop_front buf with
    | none => (level, buf, [])
    | some (c, b2) =>
      let r := fill_tx_fifo_loop (level + 1) b2
      (r.1, r.2.1, c :: r.2.2)
  else (level, buf, [])
termination_by UART_FIFO_CAPACITY - level
decreasing_by omega

/-- fill_tx_fifo: LOCK(tx_mutex); drain loop; UNLOCK(tx_mutex).  The CAmkES
mutex is modelled from the spec as a plain (non-reentrant) mutual-exclusion
guard: if the calling thread already holds tx_mutex, LOCK blocks forever,
which the model reports as `none`. -/
def fill_tx_fifo (txHeld : Bool) (level : Nat) (buf : circular_buffer) :
    Option (Nat × circular_buffer × List Nat) :=
  if txHeld then none
  else some (fill_tx_fifo_loop level buf)

/-- The while loop of write_flush:
`while (circular_buffer_remaining(&tx_buf)) fill_tx_fifo();`.
The loop runs while `remaining` is nonzero — i.e. while tx_buf is NOT FULL —
and it calls fill_tx_fifo while write_flush itself already holds tx_mutex
(txHeld = true).  `fuel` bounds the iterations the model unrolls; `none`
means the call has not returned within `fuel` iterations or a nested lock
acquisition blocked forever. -/
def write_flush_loop (fuel : Nat) (level : Nat) (buf : circular_buffer)
    (sent : List Nat) : Option (Nat × circular_buffer × List Nat) :=
  match fuel with
  | 0 => none
  | Nat.succ fuel =>
    if circular_buffer_remaining buf ≠ 0 then
      match fill_tx_fifo true level buf with
      | none => none
      | some (l2, b2, s2) => write_flush_loop fuel l2 b2 (sent ++ s2)
    else some (level, buf, sent)

/-- write_flush: LOCK(tx_mutex); while loop; UNLOCK(tx_mutex); return 0. -/
def write_flush (fuel : Nat) (level : Nat) (buf : circular_buffer) :
    Option (Int × Nat × circular_buffer × List Nat) :=
  match write_flush_loop fuel level buf [] with
  | none => none
  | some (l2, b2, s2) => some (0, l2, b2, s2)

/-- The inner for loop of write_write: push bytes from the dataport cursor
until circular_buffer_push_back fails (buffer full) or the bytes run out;
returns (buffer, leftover bytes, cursor advance). -/
def write_inner (buf : circular_buffer) :
    List Nat → circular_buffer × List Nat × Nat
  | [] => (buf, [], 0)
  | c :: cs =>
    match circular_buffer_push_back buf c with
    | none => (buf, c :: cs, 0)
    | some b2 =>
      let r := write_inner b2 cs
      (r.1, r.2.1, r.2.2 + 1)

/-- The outer while loop of write_write: while the cursor has not reached
cursor_limit, LOCK(tx_mutex); if circular_buffer_remaining(&tx_buf) == 0
break — note the break leaves the loop with tx_mutex STILL HELD; otherwise
run the inner push loop, then UNLOCK.  Returns the buffer, total bytes
pushed, whether tx_mutex is still held at loop exit, and the lock trace. -/
def write_loop (fuel : Nat) (buf : circular_buffer) (bytes : List Nat)
    (pushed : Nat) (tr : List SyncEv) :
    Option (circular_buffer × Nat × Bool × List SyncEv) :=
  match fuel with
  | 0 => none
  | Nat.succ fuel =>
    match bytes with
    | [] => some (buf, pushed, false, tr)
    | c :: cs =>
      if circular_buffer_remaining buf = 0 then
        some (buf, pushed, true, tr ++ [SyncEv.lockTx])
      else
        let r := write_inner buf (c :: cs)
        write_loop fuel r.1 r.2.1 (pushed + r.2.2)
          (tr ++ [SyncEv.lockTx, SyncEv.unlockTx])

/-- write_write: `bytes` are the dataport contents to send (the C argument
`available` is bytes.length).  Returns the result code, the hardware TX
level, tx_buf, the bytes handed to uart_putchar by the trailing
fill_tx_fifo call, and the synchronization trace.  `none` models a call
that never returns: when the while loop broke out still holding tx_mutex,
the trailing fill_tx_fifo blocks forever re-acquiring it. -/
def write_write (level : Nat) (buf : circular_buffer) (bytes : List Nat) :
    Option (Int × Nat × circular_buffer × List Nat × List SyncEv) :=
  if bytes.length > TX_RX_DATAPORT_CAPACITY then
    some (UARTDriver_OutOfDataportBounds, level, buf, [], [])
  else
    match write_loop (bytes.length + 1) buf bytes 0 [] with
    | none => none
    | some (b2, n, held, tr) =>
      match fill_tx_fifo held level b2 with
      | none => none
      | some (l2, b3, sent) =>
        if n > 0 then
          some (Int.ofNat n, l2, b3, sent, tr ++ [SyncEv.lockTx, SyncEv.unlockTx])
        else
          some (UARTDriver_AssertionFailed, l2, b3, sent,
                tr ++ [SyncEv.lockTx, SyncEv.unlockTx])

/-- The copy loop of read_read: pop up to `limit` bytes toward the dataport;
if pop_front fails (rx_buf emptied early), post rx_empty_semaphore and
break — the Bool records whether that post happened. -/
def read_loop (buf : circular_buffer) : Nat → circular_buffer × List Nat × Bool
  | 0 => (buf, [], false)
  | n + 1 =>
    match circular_buffer_pop_front buf with
    | none => (buf, [], true)
    | some (c, b2) =>
      let r := read_loop b2 n
      (r.1, c :: r.2.1, r.2.2)

/-- read_read: bounds check; LOCK(rx_mutex); while rx_buf is empty, UNLOCK
and wait on rx_nonempty_semaphore, then LOCK again.  In this sequential
model no producer runs while read_read does, so a wait entered with an
empty rx_buf never returns — the model reports `none` (blocked).  Otherwise
drain up to `limit` bytes, UNLOCK, and return the count (AssertionFailed
when it is not positive). -/
def read_read (buf : circular_buffer) (limit : Nat) :
    Option (Int × circular_buffer × List Nat × List SyncEv) :=
  if limit > TX_RX_DATAPORT_CAPACITY then
    some (UARTDriver_OutOfDataportBounds, buf, [], [])
  else if circular_buffer_empty buf then none
  else
    let r := read_loop buf limit
    let n := r.2.1.length
    let tr := [SyncEv.lockRx] ++
      (if r.2.2 then [SyncEv.postRxEmpty] else []) ++ [SyncEv.unlockRx]
    if n > 0 then some (Int.ofNat n, r.1, r.2.1, tr)
    else some (UARTDriver_AssertionFailed, r.1, r.2.1, tr)

/-- The three INTR_STATE bits the driver enables.  INTR_STATE is
write-1-to-clear (modelled from the spec): writing BIT(k) clears bit k and
leaves every other bit unchanged. -/
structure IntrState where
  tx_watermark : Bool
  rx_watermark : Bool
  tx_empty : Bool
deriving DecidableEq, Repr

/-- tx_empty_handle: fill_tx_fifo() first (tx_mutex is free at handler
entry); then LOCK(tx_mutex); if tx_buf is empty, clear INTR_STATE.tx_empty —
otherwise leave INTR_STATE untouched so the interrupt re-fires; UNLOCK;
acknowledge.  Returns hardware level, tx_buf, bytes handed to uart_putchar,
and the interrupt state. -/
def tx_empty_handle (level : Nat) (buf : circular_buffer) (intr : IntrState) :
    Nat × circular_buffer × List Nat × IntrState :=
  match fill_tx_fifo false level buf with
  | none => (level, buf, [], intr)
  | some (l2, b2, sent) =>
    if circular_buffer_empty b2 then
      (l2, b2, sent, { intr with tx_empty := false })
    else
      (l2, b2, sent, intr)

/-- Result of one rx_watermark_handle invocation over a modelled hardware RX
FIFO.  `done`: the FIFO was drained and the handler returned; `blocked`: the
handler is parked forever in rx_empty_semaphore_wait (rx_buf full and no
reader ever runs) with the unread FIFO suffix still in hardware;
`assertFail`: the seL4_Assert around circular_buffer_push_back failed. -/
inductive RxOutcome where
  | done (buf : circular_buffer) (delivered : List Nat)
  | blocked (hwLeft : List Nat) (buf : circular_buffer) (delivered : List Nat)
  | assertFail

/-- The drain loop of rx_watermark_handle: while the hardware RX FIFO is not
empty (rx_empty() false), if circular_buffer_remaining(&rx_buf) == 0, post
rx_nonempty, UNLOCK(rx_mutex), wait on rx_empty_semaphore, LOCK, continue;
otherwise seL4_Assert(circular_buffer_push_back(&rx_buf, uart_getchar())).
The wait is modelled from the spec: read_read posts rx_empty exactly when it
has drained rx_buf to empty, so each available reader turn (`readers`)
drains all of rx_buf, the drained bytes going to `delivered`. -/
def rx_watermark_loop (hw : List Nat) (buf : circular_buffer)
    (delivered : List Nat) (readers : Nat) : RxOutcome :=
  match hw with
  | [] => RxOutcome.done buf delivered
  | c :: rest =>
    if circular_buffer_remaining buf = 0 then
      match readers with
      | 0 => RxOutcome.blocked (c :: rest) buf delivered
      | Nat.succ r =>
        let d := circular_buffer_popN buf (circular_buffer_size buf)
        rx_watermark_loop (c :: rest) d.2 (delivered ++ d.1) r
    else
      match circular_buffer_push_back buf c with
      | none => RxOutcome.assertFail
      | some b2 => rx_watermark_loop rest b2 delivered readers
termination_by (readers, hw.length)

/-- rx_watermark_handle: LOCK(rx_mutex); drain loop; post rx_nonempty once
more; UNLOCK; clear INTR_STATE.rx_watermark; acknowledge.  The trailing
post, status clear and acknowledge do not touch the buffers. -/
def rx_watermark_handle (hw : List Nat) (buf : circular_buffer)
    (readers : Nat) : RxOutcome :=
  rx_watermark_loop hw buf [] readers

/-- Byte conservation for the RX drain loop, relative to a start buffer
`buf`, pending hardware FIFO `hw` and an already-delivered prefix `d0`:
the bytes delivered to readers plus the bytes still buffered equal the
initial buffer contents plus the consumed FIFO prefix, the unconsumed FIFO
suffix is intact in hardware, and the push assertion never fails. -/
def rx_conserves (hw : List Nat) (buf : circular_buffer) (d0 : List Nat) :
    RxOutcome → Prop
  | RxOutcome.done b2 d =>
      ∃ t, d = d0 ++ t ∧
        t ++ circular_buffer_toList b2 = circular_buffer_toList buf ++ hw
  | RxOutcome.blocked left b2 d =>
      ∃ t consumed, d = d0 ++ t ∧ hw = consumed ++ left ∧
        t ++ circular_buffer_toList b2 = circular_buffer_toList buf ++ consumed
  | RxOutcome.assertFail => False

/-- ctrl_nco from pre_init: `((uint64_t)baud << 20) / CLK_FIXED_FREQ_HZ`.
The uint64 arithmetic is exact (115200·2^20 < 2^64), and C unsigned
division truncates toward zero. -/
def ctrl_nco (baud clk : Nat) : Nat := baud * 2 ^ 20 / clk

/-- The `seL4_Assert(ctrl_nco < 0xffff)` guard of pre_init: `none` models
the fatal assertion failure when the divisor is too large for the 16-bit
NCO field. -/
def pre_init_nco (baud clk : Nat) : Option Nat :=
  if ctrl_nco baud clk < 0xffff then some (ctrl_nco baud clk) else none

/-- Modelled from the spec: the claimed divisor formula
round(baud * 2^20 / clock_hz), rounding half up, for comparison with the
code's ctrl_nco. -/
def spec_round_nco (baud clk : Nat) : Nat :=
  (2 * (baud * 2 ^ 20) + clk) / (2 * clk)

/-- An initialized (empty) buffer holding zeroes. -/
def emptyBuf0 : circular_buffer :=
  { data := fun _ => 0, begin_ := 0, end_ := 0 }

/-- A full buffer: 512 bytes of value 65 queued. -/
def fullBuf : circular_buffer :=
  { data := fun _ => 65, begin_ := 0, end_ := 512 }

/-- A buffer holding exactly one byte. -/
def oneBuf : circular_buffer :=
  { data := fun _ => 66, begin_ := 0, end_ := 1 }

/-- A buffer with 511 bytes queued (exactly one free slot). -/
def almostFullBuf : circular_buffer :=
  { data := fun _ => 67, begin_ := 0, end_ := 511 }

/-- A two-byte buffer holding 10 then 20. -/
def twoBuf : circular_buffer :=
  { data := fun j => if j = 0 then 10 else if j = 1 then 20 else 0,
    begin_ := 0, end_ := 2 }

-- ==================== helper lemmas: ring-buffer abstraction ====================

theorem cbc_eq : CIRCULAR_BUFFER_CAPACITY = 512 := rfl

theorem wf_iff (buf : circular_buffer) :
    circular_buffer_wf buf ↔ buf.begin_ ≤ 512 ∧ buf.end_ ≤ 512 := Iff.rfl

theorem size_eq_mod (buf : circular_buffer)
    (h1 : buf.begin_ ≤ 512) (h2 : buf.end_ ≤ 512) :
    circular_buffer_size buf = (buf.end_ + 513 - buf.begin_) % 513 := by
  simp only [circular_buffer_size, CIRCULAR_BUFFER_CAPACITY]
  split <;> omega

theorem size_le (buf : circular_buffer)
    (h1 : buf.begin_ ≤ 512) (h2 : buf.end_ ≤ 512) :
    circular_buffer_size buf ≤ 512 := by
  rw [size_eq_mod buf h1 h2]; omega

theorem advance_mod (p : Nat) (h : p ≤ 512) :
    circular_buffer_advance p = (p + 1) % 513 := by
  simp only [circular_buffer_advance, CIRCULAR_BUFFER_CAPACITY]
  split <;> omega

theorem empty_iff_size_zero (buf : circular_buffer)
    (h1 : buf.begin_ ≤ 512) (h2 : buf.end_ ≤ 512) :
    circular_buffer_empty buf = true ↔ circular_buffer_size buf = 0 := by
  rw [size_eq_mod buf h1 h2]
  simp only [circular_buffer_empty, beq_iff_eq]
  omega

theorem toList_length (buf : circular_buffer) :
    (circular_buffer_toList buf).length = circular_buffer_size buf := by
  simp [circular_buffer_toList]

theorem end_eq_mod (buf : circular_buffer)
    (h1 : buf.begin_ ≤ 512) (h2 : buf.end_ ≤ 512) :
    buf.end_ = (buf.begin_ + circular_buffer_size buf) % 513 := by
  rw [size_eq_mod buf h1 h2]
  omega

theorem pop_front_spec (buf : circular_buffer)
    (h1 : buf.begin_ ≤ 512) (h2 : buf.end_ ≤ 512)
    (hne : buf.begin_ ≠ buf.end_) :
    ∃ b2, circular_buffer_pop_front buf = some (buf.data buf.begin_, b2) ∧
      b2.begin_ ≤ 512 ∧ b2.end_ ≤ 512 ∧
      circular_buffer_toList buf =
        buf.data buf.begin_ :: circular_buffer_toList b2 ∧
      circular_buffer_size b2 = circular_buffer_size buf - 1 := by
  have ha : circular_buffer_advance buf.begin_ = (buf.begin_ + 1) % 513 :=
    advance_mod buf.begin_ h1
  refine ⟨{ buf with begin_ := circular_buffer_advance buf.begin_ },
          ?_, ?_, h2, ?_, ?_⟩
  · simp only [circular_buffer_pop_front, circular_buffer_empty]
    rw [if_neg (by simp [hne])]
  · show circular_buffer_advance buf.begin_ ≤ 512
    omega
  · have hsz2 : circular_buffer_size
        { buf with begin_ := circular_buffer_advance buf.begin_ } =
        circular_buffer_size buf - 1 := by
      simp only [circular_buffer_size, ha, CIRCULAR_BUFFER_CAPACITY]
      split <;> split <;> omega
    obtain ⟨m, hm⟩ : ∃ m, circular_buffer_size buf = m + 1 :=
      ⟨circular_buffer_size buf - 1, by rw [size_eq_mod buf h1 h2]; omega⟩
    simp only [circular_buffer_toList, hsz2, hm, Nat.add_sub_cancel]
    rw [List.range_succ_eq_map, List.map_cons, List.map_map]
    congr 1
    · congr 1
      simp only [CIRCULAR_BUFFER_CAPACITY]
      omega
    · apply List.map_congr_left
      intro i hi
      simp only [Function.comp_apply, ha, CIRCULAR_BUFFER_CAPACITY]
      congr 1
      omega
  · simp only [circular_buffer_size, ha, CIRCULAR_BUFFER_CAPACITY]
    split <;> split <;> omega

theorem push_back_spec (buf : circular_buffer) (c : Nat)
    (h1 : buf.begin_ ≤ 512) (h2 : buf.end_ ≤ 512)
    (hlt : circular_buffer_size buf < 512) :
    ∃ b2, circular_buffer_push_back buf c = some b2 ∧
      b2.begin_ = buf.begin_ ∧ b2.begin_ ≤ 512 ∧ b2.end_ ≤ 512 ∧
      circular_buffer_toList b2 = circular_buffer_toList buf ++ [c] ∧
      circular_buffer_size b2 = circular_buffer_size buf + 1 := by
  have ha : circular_buffer_advance buf.end_ = (buf.end_ + 1) % 513 :=
    advance_mod buf.end_ h2
  have hend : buf.end_ = (buf.begin_ + circular_buffer_size buf) % 513 :=
    end_eq_mod buf h1 h2
  have hsz : circular_buffer_size buf = (buf.end_ + 513 - buf.begin_) % 513 :=
    size_eq_mod buf h1 h2
  have hsz2 : circular_buffer_size
      { buf with data := fun j => if j = buf.end_ then c else buf.data j,
                 end_ := circular_buffer_advance buf.end_ } =
      circular_buffer_size buf + 1 := by
    simp only [circular_buffer_size, ha, CIRCULAR_BUFFER_CAPACITY]
    split <;> split <;> omega
  refine ⟨{ buf with data := fun j => if j = buf.end_ then c else buf.data j,
                     end_ := circular_buffer_advance buf.end_ },
          ?_, rfl, h1, ?_, ?_, hsz2⟩
  · simp only [circular_buffer_push_back, circular_buffer_remaining,
               CIRCULAR_BUFFER_CAPACITY]
    rw [if_neg (by omega)]
  · show circular_buffer_advance buf.end_ ≤ 512
    omega
  · simp only [circular_buffer_toList, hsz2]
    rw [List.range_succ, List.map_append, List.map_cons, List.map_nil]
    congr 1
    · apply List.map_congr_left
      intro i hi
      rw [List.mem_range] at hi
      rw [if_neg (by simp only [CIRCULAR_BUFFER_CAPACITY]; omega)]
    · rw [if_pos (by simp only [CIRCULAR_BUFFER_CAPACITY]; omega)]

theorem toList_nil_of_empty (buf : circular_buffer)
    (h1 : buf.begin_ ≤ 512) (h2 : buf.end_ ≤ 512)
    (he : buf.begin_ = buf.end_) : circular_buffer_toList buf = [] := by
  have hz : circular_buffer_size buf = 0 := by
    rw [size_eq_mod buf h1 h2]; omega
  simp [circular_buffer_toList, hz]

theorem popN_spec (n : Nat) : ∀ buf : circular_buffer,
    buf.begin_ ≤ 512 → buf.end_ ≤ 512 →
    (circular_buffer_popN buf n).1 = (circular_buffer_toList buf).take n ∧
    circular_buffer_toList (circular_buffer_popN buf n).2 =
      (circular_buffer_toList buf).drop n ∧
    (circular_buffer_popN buf n).2.begin_ ≤ 512 ∧
    (circular_buffer_popN buf n).2.end_ ≤ 512 := by
  induction n with
  | zero => intro buf h1 h2; simp [circular_buffer_popN, h1, h2]
  | succ n ih =>
    intro buf h1 h2
    by_cases he : buf.begin_ = buf.end_
    · have hempty : circular_buffer_empty buf = true := by
        simp [circular_buffer_empty, he]
      have hnil : circular_buffer_toList buf = [] :=
        toList_nil_of_empty buf h1 h2 he
      simp [circular_buffer_popN, circular_buffer_pop_front, hempty, hnil, h1, h2]
    · obtain ⟨b2, hpop, hb1, hb2, hlist, hsz⟩ := pop_front_spec buf h1 h2 he
      have ihb := ih b2 hb1 hb2
      simp only [circular_buffer_popN, hpop, hlist]
      simp [List.take_succ_cons, List.drop_succ_cons,
            ihb.1, ihb.2.1, ihb.2.2.1, ihb.2.2.2]

theorem pushList_spec (l : List Nat) : ∀ buf : circular_buffer,
    buf.begin_ ≤ 512 → buf.end_ ≤ 512 →
    circular_buffer_size buf + l.length ≤ 512 →
    ∃ b2, circular_buffer_pushList buf l = some b2 ∧
      b2.begin_ ≤ 512 ∧ b2.end_ ≤ 512 ∧
      circular_buffer_toList b2 = circular_buffer_toList buf ++ l ∧
      circular_buffer_size b2 = circular_buffer_size buf + l.length := by
  induction l with
  | nil => intro buf h1 h2 _; exact ⟨buf, rfl, h1, h2, by simp, by simp⟩
  | cons c cs ih =>
    intro buf h1 h2 hcap
    simp only [List.length_cons] at hcap
    obtain ⟨b2, hpush, _, hb1, hb2, hlist, hsz⟩ :=
      push_back_spec buf c h1 h2 (by omega)
    obtain ⟨b3, hrec, hc1, hc2, hlist2, hsz2⟩ :=
      ih b2 hb1 hb2 (by rw [hsz]; omega)
    refine ⟨b3, ?_, hc1, hc2, ?_, ?_⟩
    · simp only [circular_buffer_pushList, hpush]
      exact hrec
    · rw [hlist2, hlist]
      simp
    · rw [hsz2, hsz]
      simp only [List.length_cons]
      omega

theorem read_loop_spec (n : Nat) : ∀ buf : circular_buffer,
    buf.begin_ ≤ 512 → buf.end_ ≤ 512 →
    (read_loop buf n).2.1 = (circular_buffer_toList buf).take n ∧
    circular_buffer_toList (read_loop buf n).1 =
      (circular_buffer_toList buf).drop n ∧
    (read_loop buf n).1.begin_ ≤ 512 ∧ (read_loop buf n).1.end_ ≤ 512 := by
  induction n with
  | zero => intro buf h1 h2; simp [read_loop, h1, h2]
  | succ n ih =>
    intro buf h1 h2
    by_cases he : buf.begin_ = buf.end_
    · have hempty : circular_buffer_empty buf = true := by
        simp [circular_buffer_empty, he]
      have hnil : circular_buffer_toList buf = [] :=
        toList_nil_of_empty buf h1 h2 he
      simp [read_loop, circular_buffer_pop_front, hempty, hnil, h1, h2]
    · obtain ⟨b2, hpop, hb1, hb2, hlist, _⟩ := pop_front_spec buf h1 h2 he
      have ihb := ih b2 hb1 hb2
      simp only [read_loop, hpop, hlist]
      simp [List.take_succ_cons, List.drop_succ_cons,
            ihb.1, ihb.2.1, ihb.2.2.1, ihb.2.2.2]

theorem fill_tx_fifo_false (level : Nat) (buf : circular_buffer) :
    fill_tx_fifo false level buf = some (fill_tx_fifo_loop level buf) := rfl

-- ==================== claim theorems ====================

/-- C7: for every well-formed empty circular buffer and every sequence of at
most CIRCULAR_BUFFER_CAPACITY bytes, pushing all of them via push_back
succeeds (pushList returns some), and popping that many times via pop_front
yields exactly the original sequence in the order pushed, leaving the buffer
empty. -/
theorem circular_buffer_roundtrip_fifo (buf : circular_buffer) (l : List Nat)
    (hwf : circular_buffer_wf buf) (hempty : circular_buffer_empty buf = true)
    (hlen : l.length ≤ CIRCULAR_BUFFER_CAPACITY) :
    ∃ b2 b3, circular_buffer_pushList buf l = some b2 ∧
      circular_buffer_popN b2 l.length = (l, b3) ∧
      circular_buffer_empty b3 = true := by
  obtain ⟨h1, h2⟩ := hwf
  rw [cbc_eq] at h1 h2 hlen
  have hsz0 : circular_buffer_size buf = 0 :=
    (empty_iff_size_zero buf h1 h2).mp hempty
  have hnil : circular_buffer_toList buf = [] := by
    simp [circular_buffer_toList, hsz0]
  obtain ⟨b2, hpushL, hb1, hb2, hlist, _⟩ :=
    pushList_spec l buf h1 h2 (by omega)
  have hpop := popN_spec l.length b2 hb1 hb2
  refine ⟨b2, (circular_buffer_popN b2 l.length).2, hpushL, ?_, ?_⟩
  · have hfst : (circular_buffer_popN b2 l.length).1 = l := by
      rw [hpop.1, hlist, hnil]
      simp
    exact Prod.ext_iff.mpr ⟨hfst, rfl⟩
  · have hdrop : circular_buffer_toList (circular_buffer_popN b2 l.length).2 = [] := by
      rw [hpop.2.1, hlist, hnil]
      simp
    have hszf : circular_buffer_size (circular_buffer_popN b2 l.length).2 = 0 := by
      rw [← toList_length, hdrop]
      rfl
    exact (empty_iff_size_zero _ hpop.2.2.1 hpop.2.2.2).mpr hszf

/-- Witness for the round-trip claim at a concrete empty buffer and a
concrete byte sequence. -/
theorem circular_buffer_roundtrip_fifo_witness :
    circular_buffer_wf emptyBuf0 ∧ circular_buffer_empty emptyBuf0 = true ∧
    ([10, 20, 30] : List Nat).length ≤ CIRCULAR_BUFFER_CAPACITY ∧
    (∃ b2 b3, circular_buffer_pushList emptyBuf0 [10, 20, 30] = some b2 ∧
      circular_buffer_popN b2 ([10, 20, 30] : List Nat).length = ([10, 20, 30], b3) ∧
      circular_buffer_empty b3 = true) :=
  ⟨by decide, by decide, by decide,
   circular_buffer_roundtrip_fifo emptyBuf0 [10, 20, 30]
     (by decide) (by decide) (by decide)⟩

/-- C5: for every read with 1 ≤ limit ≤ dataport capacity invoked while
rx_buf is non-empty with k ≥ 1 bytes queued, read_read copies exactly the
oldest min(k, limit) bytes in FIFO order, returns min(k, limit) — which is
never zero — and leaves the remaining bytes queued. -/
theorem read_read_min_bytes (buf : circular_buffer) (limit : Nat)
    (hwf : circular_buffer_wf buf) (hlim1 : 1 ≤ limit)
    (hlim2 : limit ≤ TX_RX_DATAPORT_CAPACITY)
    (hne : circular_buffer_empty buf = false) :
    ∃ bufA tr,
      read_read buf limit =
        some (Int.ofNat (min (circular_buffer_size buf) limit), bufA,
          (circular_buffer_toList buf).take (min (circular_buffer_size buf) limit),
          tr) ∧
      circular_buffer_toList bufA = (circular_buffer_toList buf).drop limit ∧
      0 < min (circular_buffer_size buf) limit := by
  obtain ⟨h1, h2⟩ := hwf
  rw [cbc_eq] at h1 h2
  have hkpos : 0 < circular_buffer_size buf := by
    rw [size_eq_mod buf h1 h2]
    simp only [circular_buffer_empty, beq_eq_false_iff_ne] at hne
    omega
  have hrl := read_loop_spec limit buf h1 h2
  have hlen : (read_loop buf limit).2.1.length =
      min (circular_buffer_size buf) limit := by
    rw [hrl.1, List.length_take, toList_length, Nat.min_comm]
  have htake : (circular_buffer_toList buf).take limit =
      (circular_buffer_toList buf).take (min (circular_buffer_size buf) limit) := by
    rcases Nat.le_total limit (circular_buffer_size buf) with h | h
    · rw [Nat.min_eq_right h]
    · rw [Nat.min_eq_left h]
      rw [List.take_of_length_le (by rw [toList_length]; exact h)]
      conv_rhs => rw [← toList_length]
      rw [List.take_length]
  refine ⟨(read_loop buf limit).1,
      [SyncEv.lockRx] ++
        (if (read_loop buf limit).2.2 then [SyncEv.postRxEmpty] else []) ++
        [SyncEv.unlockRx], ?_, hrl.2.1, by omega⟩
  simp only [read_read]
  rw [if_neg (by omega)]
  simp only [hne, Bool.false_eq_true, if_false]
  rw [hlen]
  rw [if_pos (by omega)]
  rw [hrl.1, htake]

/-- Witness for the short-read claim: a buffer holding 10, 20 read with
limit 1 returns 1 having copied exactly the oldest byte. -/
theorem read_read_min_bytes_witness :
    circular_buffer_wf twoBuf ∧ 1 ≤ 1 ∧ 1 ≤ TX_RX_DATAPORT_CAPACITY ∧
    circular_buffer_empty twoBuf = false ∧
    (∃ bufA tr,
      read_read twoBuf 1 =
        some (Int.ofNat (min (circular_buffer_size twoBuf) 1), bufA,
          (circular_buffer_toList twoBuf).take (min (circular_buffer_size twoBuf) 1),
          tr) ∧
      circular_buffer_toList bufA = (circular_buffer_toList twoBuf).drop 1 ∧
      0 < min (circular_buffer_size twoBuf) 1) :=
  ⟨by decide, by decide, by decide, by decide,
   read_read_min_bytes twoBuf 1 (by decide) (by decide) (by decide) (by decide)⟩

/-- C9: tx_empty_handle invokes fill_tx_fifo first (its buffer result is the
fill loop's output) and clears INTR_STATE.tx_empty iff tx_buf is empty at
the post-fill check under tx_lock; when tx_buf is non-empty at that moment
the interrupt state is left completely unmodified so the interrupt
re-fires. -/
theorem tx_empty_handle_clear_iff (level : Nat) (buf : circular_buffer)
    (intr : IntrState) (hset : intr.tx_empty = true) :
    ((tx_empty_handle level buf intr).2.2.2.tx_empty = false ↔
        circular_buffer_empty (fill_tx_fifo_loop level buf).2.1 = true) ∧
    (circular_buffer_empty (fill_tx_fifo_loop level buf).2.1 = false →
        (tx_empty_handle level buf intr).2.2.2 = intr) ∧
    (tx_empty_handle level buf intr).2.1 = (fill_tx_fifo_loop level buf).2.1 := by
  cases hE : circular_buffer_empty (fill_tx_fifo_loop level buf).2.1 <;>
    simp [tx_empty_handle, fill_tx_fifo_false, hE, hset]

/-- Witness for the tx_empty status-clear claim: with the hardware FIFO full
(level 32) nothing is popped, so an empty tx_buf stays empty and the bit is
cleared. -/
theorem tx_empty_handle_clear_iff_witness :
    (IntrState.mk true true true).tx_empty = true ∧
    (((tx_empty_handle 32 emptyBuf0 (IntrState.mk true true true)).2.2.2.tx_empty
        = false ↔
      circular_buffer_empty (fill_tx_fifo_loop 32 emptyBuf0).2.1 = true) ∧
    (circular_buffer_empty (fill_tx_fifo_loop 32 emptyBuf0).2.1 = false →
      (tx_empty_handle 32 emptyBuf0 (IntrState.mk true true true)).2.2.2 =
        IntrState.mk true true true) ∧
    (tx_empty_handle 32 emptyBuf0 (IntrState.mk true true true)).2.1 =
      (fill_tx_fifo_loop 32 emptyBuf0).2.1) :=
  ⟨rfl, tx_empty_handle_clear_iff 32 emptyBuf0 (IntrState.mk true true true) rfl⟩

/-- C8 counterexample: the code computes the NCO divisor with truncating
integer division, giving 2516 for the reference configuration, while the
claimed formula round(baud·2^20 / clock_hz) gives 2517 — the two disagree at
the reference input. -/
theorem ctrl_nco_not_rounded :
    ctrl_nco 115200 CLK_FIXED_FREQ_HZ = 2516 ∧
    spec_round_nco 115200 CLK_FIXED_FREQ_HZ = 2517 ∧
    ctrl_nco 115200 CLK_FIXED_FREQ_HZ ≠ spec_round_nco 115200 CLK_FIXED_FREQ_HZ := by
  refine ⟨by norm_num [ctrl_nco, CLK_FIXED_FREQ_HZ], by norm_num [spec_round_nco, CLK_FIXED_FREQ_HZ], by norm_num [ctrl_nco, spec_round_nco, CLK_FIXED_FREQ_HZ]⟩

/-- C8 amended: the programmed divisor equals floor(baud·2^20 / clock_hz) —
2516 for the reference configuration, which passes the assertion — and any
divisor of 0xffff or more (in particular any value that does not fit the
16-bit NCO register field) is a fatal configuration error. -/
theorem ctrl_nco_floor_and_overflow_fatal :
    pre_init_nco 115200 CLK_FIXED_FREQ_HZ = some 2516 ∧
    (∀ baud clk, 0xffff ≤ ctrl_nco baud clk → pre_init_nco baud clk = none) := by
  constructor
  · norm_num [pre_init_nco, ctrl_nco, CLK_FIXED_FREQ_HZ]
  · intro baud clk h
    simp only [pre_init_nco]
    rw [if_neg (by omega)]

/-- Witness for the amended divisor claim: baud 1, clock 1 gives divisor
2^20, which overflows the 16-bit field and is fatal. -/
theorem ctrl_nco_floor_and_overflow_fatal_witness :
    0xffff ≤ ctrl_nco 1 1 ∧ pre_init_nco 1 1 = none :=
  ⟨by norm_num [ctrl_nco], ctrl_nco_floor_and_overflow_fatal.2 1 1 (by norm_num [ctrl_nco])⟩

/-- C10: at the public interface read and write never return 0 (the code the
error header reserves for end of stream): any call completing with zero
bytes transferred — including size-0 requests — returns AssertionFailed
(-1), and a read with a zero limit entered with an empty RX buffer still
blocks waiting for the buffer to become non-empty instead of returning. -/
theorem read_write_never_return_zero :
    (∀ buf limit out, read_read buf limit = some out → out.1 ≠ 0) ∧
    (∀ level buf bytes out, write_write level buf bytes = some out → out.1 ≠ 0) ∧
    (∀ level buf, ∃ out, write_write level buf [] = some out ∧
        out.1 = UARTDriver_AssertionFailed) ∧
    (∀ buf, circular_buffer_empty buf = false →
        ∃ out, read_read buf 0 = some out ∧ out.1 = UARTDriver_AssertionFailed) ∧
    (∀ buf limit, limit ≤ TX_RX_DATAPORT_CAPACITY →
        circular_buffer_empty buf = true → read_read buf limit = none) := by
  refine ⟨?_, ?_, ?_, ?_, ?_⟩
  · intro buf limit out h
    simp only [read_read] at h
    split at h
    · simp only [Option.some.injEq] at h
      subst h
      simp [UARTDriver_OutOfDataportBounds]
    · split at h
      · exact absurd h (by simp)
      · split at h
        · simp only [Option.some.injEq] at h
          subst h
          simp only [Int.ofNat_eq_natCast]
          omega
        · simp only [Option.some.injEq] at h
          subst h
          simp [UARTDriver_AssertionFailed]
  · intro level buf bytes out h
    simp only [write_write] at h
    split at h
    · simp only [Option.some.injEq] at h
      subst h
      simp [UARTDriver_OutOfDataportBounds]
    · rcases hwl : write_loop (bytes.length + 1) buf bytes 0 [] with _ | ⟨b2, n, held, tr⟩ <;>
        rw [hwl] at h
      · simp at h
      · dsimp only at h
        cases held
        · rw [fill_tx_fifo_false] at h
          dsimp only at h
          split at h
          · simp only [Option.some.injEq] at h
            subst h
            simp only [Int.ofNat_eq_natCast]
            omega
          · simp only [Option.some.injEq] at h
            subst h
            simp [UARTDriver_AssertionFailed]
        · simp [fill_tx_fifo] at h
  · intro level buf
    exact ⟨(UARTDriver_AssertionFailed, (fill_tx_fifo_loop level buf).1,
            (fill_tx_fifo_loop level buf).2.1, (fill_tx_fifo_loop level buf).2.2,
            [SyncEv.lockTx, SyncEv.unlockTx]), rfl, rfl⟩
  · intro buf hne
    refine ⟨(UARTDriver_AssertionFailed, buf, [], [SyncEv.lockRx, SyncEv.unlockRx]),
            ?_, rfl⟩
    simp only [read_read]
    rw [if_neg (by decide)]
    simp [hne, read_loop]
  · intro buf limit hle hempty
    simp only [read_read]
    rw [if_neg (by omega)]
    simp [hempty]

/-- Witness for the never-return-zero claim: a zero-limit read on a
non-empty buffer completes with AssertionFailed; on an empty buffer it
blocks instead of returning. -/
theorem read_write_never_return_zero_witness :
    circular_buffer_empty twoBuf = false ∧
    (∃ out, read_read twoBuf 0 = some out ∧ out.1 = UARTDriver_AssertionFailed) ∧
    0 ≤ TX_RX_DATAPORT_CAPACITY ∧ circular_buffer_empty emptyBuf0 = true ∧
    read_read emptyBuf0 0 = none :=
  ⟨by decide, read_write_never_return_zero.2.2.2.1 twoBuf (by decide),
   by decide, by decide,
   read_write_never_return_zero.2.2.2.2 emptyBuf0 0 (by decide) (by decide)⟩

/-- C6: read returns OutOfDataportBounds iff its limit exceeds the dataport
capacity, and write returns it iff its byte count does; in the error case
the call returns with an empty synchronization trace (no lock was touched),
no bytes handed to hardware, and the circular buffer unchanged. -/
theorem dataport_bounds_error_iff :
    (∀ buf limit, TX_RX_DATAPORT_CAPACITY < limit →
        read_read buf limit = some (UARTDriver_OutOfDataportBounds, buf, [], [])) ∧
    (∀ buf limit out, limit ≤ TX_RX_DATAPORT_CAPACITY →
        read_read buf limit = some out → out.1 ≠ UARTDriver_OutOfDataportBounds) ∧
    (∀ level buf bytes, TX_RX_DATAPORT_CAPACITY < bytes.length →
        write_write level buf bytes =
          some (UARTDriver_OutOfDataportBounds, level, buf, [], [])) ∧
    (∀ level buf bytes out, bytes.length ≤ TX_RX_DATAPORT_CAPACITY →
        write_write level buf bytes = some out →
        out.1 ≠ UARTDriver_OutOfDataportBounds) := by
  refine ⟨?_, ?_, ?_, ?_⟩
  · intro buf limit h
    simp only [read_read]
    rw [if_pos (by omega)]
  · intro buf limit out hle h
    simp only [read_read] at h
    rw [if_neg (by omega)] at h
    split at h
    · exact absurd h (by simp)
    · split at h
      · simp only [Option.some.injEq] at h
        subst h
        simp only [Int.ofNat_eq_natCast, UARTDriver_OutOfDataportBounds]
        omega
      · simp only [Option.some.injEq] at h
        subst h
        simp [UARTDriver_AssertionFailed, UARTDriver_OutOfDataportBounds]
  · intro level buf bytes h
    simp only [write_write]
    rw [if_pos (by omega)]
  · intro level buf bytes out hle h
    simp only [write_write] at h
    rw [if_neg (by omega)] at h
    rcases hwl : write_loop (bytes.length + 1) buf bytes 0 [] with _ | ⟨b2, n, held, tr⟩ <;>
      rw [hwl] at h
    · simp at h
    · dsimp only at h
      cases held
      · rw [fill_tx_fifo_false] at h
        dsimp only at h
        split at h
        · simp only [Option.some.injEq] at h
          subst h
          simp only [Int.ofNat_eq_natCast, UARTDriver_OutOfDataportBounds]
          omega
        · simp only [Option.some.injEq] at h
          subst h
          simp [UARTDriver_AssertionFailed, UARTDriver_OutOfDataportBounds]
      · simp [fill_tx_fifo] at h

/-- Witness for the bounds-error claim: limit 5000 exceeds the 4096-byte
dataport for both read and write; the error returns the buffer unchanged
with an empty trace. -/
theorem dataport_bounds_error_iff_witness :
    TX_RX_DATAPORT_CAPACITY < 5000 ∧
    read_read twoBuf 5000 = some (UARTDriver_OutOfDataportBounds, twoBuf, [], []) ∧
    TX_RX_DATAPORT_CAPACITY < (List.replicate 5000 7).length ∧
    write_write 3 twoBuf (List.replicate 5000 7) =
      some (UARTDriver_OutOfDataportBounds, 3, twoBuf, [], []) :=
  ⟨by decide, dataport_bounds_error_iff.1 twoBuf 5000 (by decide),
   by rw [List.length_replicate]; decide,
   dataport_bounds_error_iff.2.2.1 3 twoBuf (List.replicate 5000 7)
     (by rw [List.length_replicate]; decide)⟩

/-- C2 (write_flush): the loop condition is
`while (circular_buffer_remaining(&tx_buf))`, i.e. it loops while tx_buf is
NOT FULL, and the nested fill_tx_fifo re-acquires the tx_mutex that
write_flush already holds; consequently from any non-full tx_buf state the
call never returns (for every fuel), and in the only state where it does
return — tx_buf completely full — it returns 0 immediately with all 512
bytes still buffered and nothing handed to hardware. -/
theorem write_flush_never_drains :
    (∀ fuel level, write_flush fuel level emptyBuf0 = none) ∧
    (∀ fuel level, write_flush fuel level oneBuf = none) ∧
    write_flush 1 0 fullBuf = some (0, 0, fullBuf, []) ∧
    circular_buffer_empty fullBuf = false ∧
    circular_buffer_size fullBuf = 512 := by
  refine ⟨?_, ?_, rfl, by decide, by decide⟩
  · intro fuel level
    cases fuel with
    | zero => rfl
    | succ n => rfl
  · intro fuel level
    cases fuel with
    | zero => rfl
    | succ n => rfl

/-- C3 (write_write overflow): a write whose byte count exceeds the
remaining TX-buffer space never returns: the outer while loop breaks out
still holding tx_mutex, and the trailing fill_tx_fifo blocks forever
re-acquiring it (no TX-has-space signal exists anywhere in the driver).
Evaluated on a full buffer offered one byte and on a one-slot-free buffer
offered two bytes. -/
theorem write_write_overflow_never_returns :
    write_write 0 fullBuf [1] = none ∧
    write_write 0 almostFullBuf [1, 2] = none :=
  ⟨rfl, rfl⟩

/-- C4 (lock discipline): two operations break balanced locking —
write_flush acquires tx_mutex and then calls fill_tx_fifo, which acquires
the same mutex again, so it never returns from any non-full state; and a
write_write that fills the buffer exits its while loop still holding
tx_mutex (the break path skips the unlock) before fill_tx_fifo re-acquires
it. -/
theorem tx_mutex_discipline_broken :
    (∀ fuel level, write_flush fuel level twoBuf = none) ∧
    write_write 5 fullBuf [9] = none := by
  refine ⟨?_, rfl⟩
  intro fuel level
  cases fuel with
  | zero => rfl
  | succ n => rfl

theorem popAll_drains (buf : circular_buffer)
    (h1 : buf.begin_ ≤ 512) (h2 : buf.end_ ≤ 512) :
    (circular_buffer_popN buf (circular_buffer_size buf)).1 =
      circular_buffer_toList buf ∧
    circular_buffer_toList
      (circular_buffer_popN buf (circular_buffer_size buf)).2 = [] ∧
    (circular_buffer_popN buf (circular_buffer_size buf)).2.begin_ ≤ 512 ∧
    (circular_buffer_popN buf (circular_buffer_size buf)).2.end_ ≤ 512 := by
  have h := popN_spec (circular_buffer_size buf) buf h1 h2
  refine ⟨?_, ?_, h.2.2.1, h.2.2.2⟩
  · rw [h.1, ← toList_length, List.take_length]
  · rw [h.2.1, ← toList_length, List.drop_length]

theorem rx_conserves_push (c : Nat) (rest : List Nat)
    (buf b2 : circular_buffer) (d0 : List Nat)
    (hlist : circular_buffer_toList b2 = circular_buffer_toList buf ++ [c])
    (out : RxOutcome) (h : rx_conserves rest b2 d0 out) :
    rx_conserves (c :: rest) buf d0 out := by
  cases out with
  | done b3 d =>
    obtain ⟨t, hd, ht⟩ := h
    exact ⟨t, hd, by rw [ht, hlist]; simp⟩
  | blocked left b3 d =>
    obtain ⟨t, consumed, hd, hhw, ht⟩ := h
    exact ⟨t, c :: consumed, hd, by rw [hhw]; simp, by rw [ht, hlist]; simp⟩
  | assertFail => exact h

theorem rx_conserves_drain (hw : List Nat) (buf bD : circular_buffer)
    (d0 : List Nat) (hD : circular_buffer_toList bD = [])
    (out : RxOutcome)
    (h : rx_conserves hw bD (d0 ++ circular_buffer_toList buf) out) :
    rx_conserves hw buf d0 out := by
  cases out with
  | done b3 d =>
    obtain ⟨t, hd, ht⟩ := h
    refine ⟨circular_buffer_toList buf ++ t, by rw [hd]; simp, ?_⟩
    rw [List.append_assoc, ht, hD]
    simp
  | blocked left b3 d =>
    obtain ⟨t, consumed, hd, hhw, ht⟩ := h
    refine ⟨circular_buffer_toList buf ++ t, consumed, by rw [hd]; simp, hhw, ?_⟩
    rw [List.append_assoc, ht, hD]
    simp
  | assertFail => exact h

theorem rx_loop_conserves : ∀ (readers : Nat) (hw : List Nat)
    (buf : circular_buffer) (d0 : List Nat),
    buf.begin_ ≤ 512 → buf.end_ ≤ 512 →
    rx_conserves hw buf d0 (rx_watermark_loop hw buf d0 readers) := by
  intro readers
  induction readers with
  | zero =>
    intro hw
    induction hw with
    | nil =>
      intro buf d0 h1 h2
      rw [rx_watermark_loop]
      exact ⟨[], by simp, by simp⟩
    | cons c rest ih =>
      intro buf d0 h1 h2
      rw [rx_watermark_loop]
      by_cases hful : circular_buffer_remaining buf = 0
      · rw [if_pos hful]
        exact ⟨[], [], by simp, by simp, by simp⟩
      · rw [if_neg hful]
        have hsz : circular_buffer_size buf < 512 := by
          simp only [circular_buffer_remaining, CIRCULAR_BUFFER_CAPACITY] at hful
          have := size_le buf h1 h2
          omega
        obtain ⟨b2, hpush, _, hb1, hb2, hlist, _⟩ :=
          push_back_spec buf c h1 h2 hsz
        rw [hpush]
        exact rx_conserves_push c rest buf b2 d0 hlist _ (ih b2 d0 hb1 hb2)
  | succ r ihr =>
    intro hw
    induction hw with
    | nil =>
      intro buf d0 h1 h2
      rw [rx_watermark_loop]
      exact ⟨[], by simp, by simp⟩
    | cons c rest ih =>
      intro buf d0 h1 h2
      rw [rx_watermark_loop]
      by_cases hful : circular_buffer_remaining buf = 0
      · rw [if_pos hful]
        dsimp only
        have hd := popAll_drains buf h1 h2
        rw [hd.1]
        exact rx_conserves_drain (c :: rest) buf _ d0 hd.2.1 _
          (ihr (c :: rest) _ (d0 ++ circular_buffer_toList buf)
            hd.2.2.1 hd.2.2.2)
      · rw [if_neg hful]
        have hsz : circular_buffer_size buf < 512 := by
          simp only [circular_buffer_remaining, CIRCULAR_BUFFER_CAPACITY] at hful
          have := size_le buf h1 h2
          omega
        obtain ⟨b2, hpush, _, hb1, hb2, hlist, _⟩ :=
          push_back_spec buf c h1 h2 hsz
        rw [hpush]
        exact rx_conserves_push c rest buf b2 d0 hlist _ (ih b2 d0 hb1 hb2)

/-- C1: rx_watermark_handle never discards a received byte.  For every
well-formed rx_buf, hardware FIFO content and number of reader turns, the
handler outcome conserves bytes (rx_conserves): the seL4_Assert around
circular_buffer_push_back never fails — the push happens only after the
remaining() > 0 check, so it always succeeds — and every byte removed from
the hardware FIFO by uart_getchar is appended to rx_buf or was handed to a
reader during a backpressure wait; when rx_buf is full the handler posts
rx_nonempty and waits on rx_empty (outcome `blocked` if no reader ever
runs, with the unread bytes intact in the hardware FIFO) instead of
dropping the byte. -/
theorem rx_watermark_no_byte_loss (hw : List Nat) (buf : circular_buffer)
    (readers : Nat) (hwf : circular_buffer_wf buf) :
    rx_conserves hw buf [] (rx_watermark_handle hw buf readers) := by
  obtain ⟨h1, h2⟩ := hwf
  rw [cbc_eq] at h1 h2
  exact rx_loop_conserves readers hw buf [] h1 h2

/-- Witness for the no-byte-loss claim: an empty well-formed buffer, two
pending hardware bytes and no reader turns. -/
theorem rx_watermark_no_byte_loss_witness :
    circular_buffer_wf emptyBuf0 ∧
    rx_conserves [7, 8] emptyBuf0 []
      (rx_watermark_handle [7, 8] emptyBuf0 0) :=
  ⟨by decide, rx_watermark_no_byte_loss [7, 8] emptyBuf0 0 (by decide)⟩
